import Mathlib

/-!
Verification of the Snowflake node (n8n): a shallow embedding of the
CSV streaming bridge, the streaming query executor, the connection
lifecycle, the insert/update SQL builders, and the key-pair credential
handling, with theorems settling the specification claims.

Sources embedded:
  - Snowflake.execute (node file): csv branch, insert branch, update
    branch, connect/destroy sequencing.
  - GenericFunctions: executeStream, extractPrivateKey,
    getConnectionOptions (key-pair branch).
-/

namespace SnowflakeNode

/-- JavaScript scalar values occurring in result rows and bind lists.
Numbers are modelled as integers (the stringification of an integral
JS number agrees with Int.repr). -/
inductive JSValue where
  | null
  | undefined
  | str (s : String)
  | num (n : Int)
  | bool (b : Bool)
deriving DecidableEq, Repr

/-- A row object: column names mapped to scalar values, in the order
the object iterates its keys (for SDK result rows this is insertion
order). Keys of a JS object are unique. -/
abbrev Row := List (String × JSValue)

/-- Embeds the JS property access row[h]: the value of the first pair
with the given key, undefined when the key is absent. -/
def rowLookup (row : Row) (h : String) : JSValue :=
  match row with
  | [] => JSValue.undefined
  | (k, v) :: rest => if k = h then v else rowLookup rest h

/-- Embeds the JS cast String(val) on a scalar value. -/
def jsString : JSValue → String
  | JSValue.null => "null"
  | JSValue.undefined => "undefined"
  | JSValue.str s => s
  | JSValue.num n => toString n
  | JSValue.bool b => if b then "true" else "false"

/-- Embeds val.replace with a global regex matching one double-quote
character, replacing each occurrence by two double quotes. -/
def escapeQuotes (s : String) : String :=
  String.join (s.data.map (fun c => if c = '"' then "\"\"" else String.singleton c))

/-- Embeds the per-field serialization of the csv onRow callback:
empty string for null/undefined, double-quote wrapping with internal
quotes doubled for strings, String(val) otherwise. -/
def csvField (v : JSValue) : String :=
  match v with
  | JSValue.null => ""
  | JSValue.undefined => ""
  | JSValue.str s => "\"" ++ escapeQuotes s ++ "\""
  | v => jsString v

/-- Embeds the header line: each header double-quote-wrapped, joined
with commas, newline-terminated. -/
def headerLine (hs : List String) : String :=
  String.intercalate "," (hs.map (fun h => "\"" ++ h ++ "\"")) ++ "\n"

/-- Embeds the data line of one row: the serialized value of row[h]
for each h in the fixed headers sequence, comma-joined and
newline-terminated. -/
def dataLine (headers : List String) (row : Row) : String :=
  String.intercalate "," (headers.map (fun h => csvField (rowLookup row h))) ++ "\n"

/-- The mutable state of the CSV bridge: headers (set exactly once,
from the first row), the chunks pushed so far into the readable
stream, and the row counter. -/
structure CsvState where
  headers : Option (List String)
  chunks : List String
  rowCount : Nat
deriving DecidableEq, Repr

/-- Initial bridge state: headers null, nothing pushed, zero rows. -/
def csvInit : CsvState := { headers := none, chunks := [], rowCount := 0 }

/-- Embeds one invocation of the onRow callback of the csv branch: on
the first row the headers are extracted from the keys of the row and
the header line is pushed; then the data line over the fixed headers
is pushed and rowCount incremented. -/
def csvOnRow (st : CsvState) (row : Row) : CsvState :=
  match st.headers with
  | none =>
      { headers := some (row.map Prod.fst),
        chunks := st.chunks ++ [headerLine (row.map Prod.fst), dataLine (row.map Prod.fst) row],
        rowCount := st.rowCount + 1 }
  | some hs =>
      { headers := some hs,
        chunks := st.chunks ++ [dataLine hs row],
        rowCount := st.rowCount + 1 }

/-- The bridge state after a sequence of onRow invocations. -/
def csvRun (rows : List Row) : CsvState :=
  rows.foldl csvOnRow csvInit

/-- Events emitted by the row stream returned by stmt.streamRows():
a data event carrying one row, an error event, or the terminal end
event. -/
inductive RowEvent where
  | rowData (row : Row)
  | streamErr (e : String)
  | streamEnd
deriving DecidableEq, Repr

/-- The settlement state of the awaitable returned by executeStream:
still pending, resolved, or rejected with an error. A settled
awaitable never changes again, so only the first terminal event
counts. -/
inductive PromiseOutcome where
  | pending
  | resolved
  | rejected (e : String)
deriving DecidableEq, Repr

/-- Processes the row-stream events of executeStream in order: each
data event invokes onRow (the delivered rows are accumulated in
arrival order), the first error event rejects, the first end event
resolves; without a terminal event the awaitable stays pending. -/
def runRowEvents (delivered : List Row) (events : List RowEvent) :
    List Row × PromiseOutcome :=
  match events with
  | [] => (delivered, PromiseOutcome.pending)
  | RowEvent.rowData r :: rest => runRowEvents (delivered ++ [r]) rest
  | RowEvent.streamErr e :: _ => (delivered, PromiseOutcome.rejected e)
  | RowEvent.streamEnd :: _ => (delivered, PromiseOutcome.resolved)

/-- Embeds executeStream: the complete callback with an error rejects
at once (no row is delivered); otherwise the statement streams its
rows and the promise is settled by the stream events. Returns the
rows delivered to onRow, in order, with the settlement outcome. -/
def executeStream (completeError : Option String) (events : List RowEvent) :
    List Row × PromiseOutcome :=
  match completeError with
  | some e => ([], PromiseOutcome.rejected e)
  | none => runRowEvents [] events

/-- How the readable csv stream was closed by the bridge owner:
not closed yet, closed cleanly by push(null), or destroyed with an
error. -/
inductive CloseMode where
  | notClosed
  | clean
  | destroyed (e : String)
deriving DecidableEq, Repr

/-- Outcome of the csv branch of one executeQuery item: a success
record carrying rowCount and the summary message, a failure
propagating an error, or hanging when the stream never terminates. -/
inductive BranchOutcome where
  | success (rowCount : Nat) (message : String)
  | failure (e : String)
  | hangs
deriving DecidableEq, Repr

/-- Full observable result of the csv branch: the chunks pushed into
the readable stream, the final rowCount, the rows delivered to onRow,
the streamError variable, how the stream was closed, and the item
outcome. -/
structure CsvBranchResult where
  chunks : List String
  rowCount : Nat
  delivered : List Row
  streamError : Option String
  close : CloseMode
  outcome : BranchOutcome
deriving DecidableEq, Repr

/-- Processes the stream events driving the csv branch: data events
run the bridge onRow; the end event resolves the stream promise, so
the bridge closes the stream cleanly and, streamError being null, the
branch returns the success record with rowCount and the summary
message; an error event is caught, recorded once in streamError, the
stream is destroyed with it and the branch fails with it. -/
def csvBranchGo (st : CsvState) (delivered : List Row) (events : List RowEvent) :
    CsvBranchResult :=
  match events with
  | [] =>
      { chunks := st.chunks, rowCount := st.rowCount, delivered := delivered,
        streamError := none, close := CloseMode.notClosed,
        outcome := BranchOutcome.hangs }
  | RowEvent.rowData r :: rest => csvBranchGo (csvOnRow st r) (delivered ++ [r]) rest
  | RowEvent.streamEnd :: _ =>
      { chunks := st.chunks, rowCount := st.rowCount, delivered := delivered,
        streamError := none, close := CloseMode.clean,
        outcome := BranchOutcome.success st.rowCount
          ("Exported " ++ toString st.rowCount ++ " rows to CSV") }
  | RowEvent.streamErr e :: _ =>
      { chunks := st.chunks, rowCount := st.rowCount, delivered := delivered,
        streamError := some e, close := CloseMode.destroyed e,
        outcome := BranchOutcome.failure e }

/-- Embeds the csv branch of executeQuery for one item: executeStream
is started with the bridge onRow as callback; an error reported by
the complete callback is caught by the same catch handler (recorded
in streamError, stream destroyed, branch fails); otherwise the stream
events decide the result. -/
def runCsvBranch (completeError : Option String) (events : List RowEvent) :
    CsvBranchResult :=
  match completeError with
  | some e =>
      { chunks := [], rowCount := 0, delivered := [],
        streamError := some e, close := CloseMode.destroyed e,
        outcome := BranchOutcome.failure e }
  | none => csvBranchGo csvInit [] events

/-- The three awaited resource steps of one node invocation, in the
order the execute method reaches them. -/
inductive LifecycleAction where
  | connectAction
  | operationAction
  | destroyAction
deriving DecidableEq, Repr

/-- Embeds the control flow of Snowflake.execute around the
connection: connect is awaited first, then the selected operation
runs its awaited executions, then destroy is awaited; there is no
try/finally, so the first rejected await throws out of the method and
the later steps never run. Returns the steps reached and the overall
result. -/
def nodeInvocation (connectError opError destroyError : Option String) :
    List LifecycleAction × Except String Unit :=
  match connectError with
  | some e => ([LifecycleAction.connectAction], Except.error e)
  | none =>
      match opError with
      | some e =>
          ([LifecycleAction.connectAction, LifecycleAction.operationAction],
            Except.error e)
      | none =>
          match destroyError with
          | some e =>
              ([LifecycleAction.connectAction, LifecycleAction.operationAction,
                LifecycleAction.destroyAction], Except.error e)
          | none =>
              ([LifecycleAction.connectAction, LifecycleAction.operationAction,
                LifecycleAction.destroyAction], Except.ok ())

/-- Splits a character list at each comma, character-level embedding
of the JS string split on a one-comma separator: the empty string
yields one empty piece, adjacent and trailing commas yield empty
pieces. -/
def splitCommaAux (cs : List Char) (acc : List Char) : List String :=
  match cs with
  | [] => [String.mk acc.reverse]
  | c :: rest =>
      if c = ',' then String.mk acc.reverse :: splitCommaAux rest []
      else splitCommaAux rest (c :: acc)

/-- Embeds the JS trim: whitespace stripped from both ends. -/
def trimWs (s : String) : String :=
  String.mk (((s.data.dropWhile Char.isWhitespace).reverse.dropWhile Char.isWhitespace).reverse)

/-- Embeds columnString.split on a comma with each piece trimmed. -/
def parseColumns (s : String) : List String :=
  (splitCommaAux s.data []).map trimWs

/-- Modelled from the spec: the host helper copyInputItems is not
under src/; per the spec an input item is projected onto exactly the
listed properties, in list order, so the values of the copy are the
ordered column values of the row. -/
def copyInputItems (items : List Row) (properties : List String) : List Row :=
  items.map (fun item => properties.map (fun p => (p, rowLookup item p)))

/-- Embeds Object.values: the values of the object in key order. -/
def objectValues (row : Row) : List JSValue :=
  row.map Prod.snd

/-- One call to the execute wrapper: the SQL text and its binds. For
insert the binds are an array of row-value arrays passed to a single
call; for update each call gets one flat bind list. -/
inductive BindArg where
  | flat (vs : List JSValue)
  | nested (vss : List (List JSValue))
deriving DecidableEq, Repr

/-- A single conn.execute invocation issued by an operation. -/
structure ExecCall where
  sqlText : String
  binds : BindArg
deriving DecidableEq, Repr

/-- Embeds the insert branch: columns are parsed from the
comma-separated string, the SQL is INSERT INTO table(cols) VALUES
with one placeholder per column, the items are copied onto the
columns and one execute call carries the per-row value arrays. -/
def insertOperation (table columnString : String) (items : List Row) :
    List ExecCall :=
  let columns := parseColumns columnString
  let query := "INSERT INTO " ++ table ++ "(" ++ String.intercalate "," columns
      ++ ") VALUES (" ++ String.intercalate "," (columns.map (fun _ => "?")) ++ ")"
  let data := copyInputItems items columns
  [{ sqlText := query, binds := BindArg.nested (data.map objectValues) }]

/-- Embeds the update branch: columns are parsed, the update key is
prepended when absent, the SQL is UPDATE table SET col = ? joined
with commas WHERE key = ?, and one execute call per copied row binds
the row values followed by the key value of the row. -/
def updateOperation (table updateKey columnString : String) (items : List Row) :
    List ExecCall :=
  let columns0 := parseColumns columnString
  let columns := if columns0.contains updateKey then columns0 else updateKey :: columns0
  let query := "UPDATE " ++ table ++ " SET "
      ++ String.intercalate "," (columns.map (fun column => column ++ " = ?"))
      ++ " WHERE " ++ updateKey ++ " = ?;"
  let data := copyInputItems items columns
  let binds := data.map (fun element => objectValues element ++ [rowLookup element updateKey])
  binds.map (fun b => { sqlText := query, binds := BindArg.flat b })

/-- Private key material as it flows through extractPrivateKey: the
output of formatPrivateKey on the credential key, or the PKCS8 PEM
export of the key object decrypted with a passphrase. The two crypto
host functions are modelled as opaque constructors. -/
inductive PrivateKeyMaterial where
  | formattedPem (source : String)
  | pkcs8Pem (source : String) (passphrase : String)
deriving DecidableEq, Repr

/-- Whether the material is a PKCS8 PEM export. -/
def isPkcs8 : PrivateKeyMaterial → Bool
  | PrivateKeyMaterial.pkcs8Pem _ _ => true
  | PrivateKeyMaterial.formattedPem _ => false

/-- Embeds extractPrivateKey: the key is formatted; when the
passphrase is falsy (absent or empty) the formatted key is returned
as is; only otherwise is the key decrypted and exported as PKCS8. -/
def extractPrivateKey (privateKey : String) (passphrase : Option String) :
    PrivateKeyMaterial :=
  match passphrase with
  | none => PrivateKeyMaterial.formattedPem privateKey
  | some p =>
      if p = "" then PrivateKeyMaterial.formattedPem privateKey
      else PrivateKeyMaterial.pkcs8Pem privateKey p

/-- The connection options set by the key-pair branch of
getConnectionOptions. -/
structure KeyPairConnOptions where
  authenticator : String
  username : String
  privateKey : PrivateKeyMaterial
deriving DecidableEq, Repr

/-- Embeds the keyPair branch of getConnectionOptions: authenticator
SNOWFLAKE_JWT, the credential username, and the private key produced
by extractPrivateKey. -/
def getConnectionOptionsKeyPair (username privateKey : String)
    (passphrase : Option String) : KeyPairConnOptions :=
  { authenticator := "SNOWFLAKE_JWT", username := username,
    privateKey := extractPrivateKey privateKey passphrase }

/-! Helper lemmas -/

/-- Once the headers are fixed, each further onRow invocation appends
exactly the data line of its row and increments the counter. -/
lemma foldl_csvOnRow_fixed (hs : List String) (chunks : List String) (n : Nat)
    (rows : List Row) :
    rows.foldl csvOnRow { headers := some hs, chunks := chunks, rowCount := n } =
      { headers := some hs, chunks := chunks ++ rows.map (dataLine hs),
        rowCount := n + rows.length } := by
  induction rows generalizing chunks n with
  | nil => simp
  | cons r rs ih =>
      simp only [List.foldl_cons, csvOnRow, ih, List.map_cons, List.length_cons,
        CsvState.mk.injEq]
      refine ⟨trivial, by simp, by omega⟩

/-- The bridge state after the first row has fixed headers, the header
line followed by the data lines of all rows, and the row counter. -/
lemma csvRun_cons (r : Row) (rs : List Row) :
    csvRun (r :: rs) =
      { headers := some (r.map Prod.fst),
        chunks := headerLine (r.map Prod.fst) :: (r :: rs).map (dataLine (r.map Prod.fst)),
        rowCount := (r :: rs).length } := by
  have h0 : csvOnRow csvInit r =
      { headers := some (r.map Prod.fst),
        chunks := [headerLine (r.map Prod.fst), dataLine (r.map Prod.fst) r],
        rowCount := 1 } := rfl
  simp only [csvRun, List.foldl_cons, h0, foldl_csvOnRow_fixed, List.map_cons,
    List.length_cons, CsvState.mk.injEq]
  refine ⟨trivial, by simp, by omega⟩

/-- The row counter of the bridge equals the number of onRow
invocations. -/
lemma csvRun_rowCount (rows : List Row) : (csvRun rows).rowCount = rows.length := by
  cases rows with
  | nil => rfl
  | cons r rs => rw [csvRun_cons]

/-- Looking up a key that no pair of the row carries yields
undefined. -/
lemma rowLookup_not_mem (row : Row) (h : String) (hmem : ∀ p ∈ row, p.1 ≠ h) :
    rowLookup row h = JSValue.undefined := by
  induction row with
  | nil => rfl
  | cons p rest ih =>
      have hp : p.1 ≠ h := hmem p (List.mem_cons_self p rest)
      simp only [rowLookup]
      rw [if_neg hp]
      exact ih (fun q hq => hmem q (List.mem_cons_of_mem p hq))

/-- Looking up a key in the projection of a row onto a column list
containing the key recovers the value of the row at the key. -/
lemma rowLookup_proj (item : Row) (cols : List String) (k : String) (hk : k ∈ cols) :
    rowLookup (cols.map (fun c => (c, rowLookup item c))) k = rowLookup item k := by
  induction cols with
  | nil => cases hk
  | cons c cs ih =>
      simp only [List.map_cons, rowLookup]
      by_cases h : c = k
      · rw [if_pos h, h]
      · rw [if_neg h]
        exact ih (by cases hk with
          | head => exact absurd rfl h
          | tail _ hmem => exact hmem)

/-- Processing a run of data events folds the bridge over the rows
and accumulates them as delivered. -/
lemma runRowEvents_data (rows : List Row) (d : List Row) (rest : List RowEvent) :
    runRowEvents d (rows.map RowEvent.rowData ++ rest) =
      runRowEvents (d ++ rows) rest := by
  induction rows generalizing d with
  | nil => simp
  | cons r rs ih =>
      simp only [List.map_cons, List.cons_append, runRowEvents, List.append_eq, ih,
        List.append_assoc, List.singleton_append, List.nil_append]

/-- Processing a run of data events in the csv branch folds the
bridge state over the rows and accumulates the delivered rows. -/
lemma csvBranchGo_data (rows : List Row) (st : CsvState) (d : List Row)
    (rest : List RowEvent) :
    csvBranchGo st d (rows.map RowEvent.rowData ++ rest) =
      csvBranchGo (rows.foldl csvOnRow st) (d ++ rows) rest := by
  induction rows generalizing st d with
  | nil => simp
  | cons r rs ih =>
      simp only [List.map_cons, List.cons_append, csvBranchGo, List.foldl_cons,
        List.append_eq, ih, List.append_assoc, List.singleton_append, List.nil_append]

/-- One onRow invocation increments the row counter by one. -/
lemma csvOnRow_rowCount (st : CsvState) (r : Row) :
    (csvOnRow st r).rowCount = st.rowCount + 1 := by
  cases st with
  | mk hs chunks n => cases hs <;> rfl

/-- Along any event trace, the rows counted equal the rows
delivered. -/
lemma csvBranchGo_count_delivered (events : List RowEvent) (st : CsvState)
    (d : List Row) (hinv : st.rowCount = d.length) :
    (csvBranchGo st d events).rowCount = (csvBranchGo st d events).delivered.length := by
  induction events generalizing st d with
  | nil => simpa [csvBranchGo] using hinv
  | cons ev rest ih =>
      cases ev with
      | rowData r =>
          simp only [csvBranchGo]
          exact ih (csvOnRow st r) (d ++ [r])
            (by simp [csvOnRow_rowCount, hinv])
      | streamErr e => simpa [csvBranchGo] using hinv
      | streamEnd => simpa [csvBranchGo] using hinv

/-! Claim theorems -/

/-- C1: for every sequence of rows delivered to the csv onRow
callback, exactly one header line is pushed, before any data line,
with the field names of the first row in insertion order,
double-quote-wrapped and comma-joined; every data line iterates over
that fixed headers sequence (so fields absent from the first row are
ignored), and a header field missing from a row serializes as the
empty string. -/
theorem csvBridge_header_and_rows (r : Row) (rs : List Row) :
    (csvRun (r :: rs)).chunks =
      headerLine (r.map Prod.fst) :: (r :: rs).map (dataLine (r.map Prod.fst))
    ∧ ∀ (row : Row) (h : String), (∀ p ∈ row, p.1 ≠ h) →
        csvField (rowLookup row h) = "" := by
  constructor
  · rw [csvRun_cons]
  · intro row h hmem
    rw [rowLookup_not_mem row h hmem]
    rfl

/-- Witness for C1 at a concrete input: two rows, the second carrying
only a field absent from the headers of the first; the chunks are the
header line and the two data lines over the fixed headers, and the
lookup of the missing header field serializes as the empty string. -/
theorem csvBridge_header_and_rows_witness :
    (csvRun [[("id", JSValue.num 1)], [("extra", JSValue.str "x")]]).chunks =
      headerLine ["id"] ::
        [dataLine ["id"] [("id", JSValue.num 1)], dataLine ["id"] [("extra", JSValue.str "x")]]
    ∧ csvField (rowLookup [("extra", JSValue.str "x")] "id") = "" := by
  have h := csvBridge_header_and_rows [("id", JSValue.num 1)] [[("extra", JSValue.str "x")]]
  exact ⟨h.1, h.2 [("extra", JSValue.str "x")] "id" (by decide)⟩

/-- C2: field serialization of the csv bridge: null and undefined
become the empty string; a string is double-quote-wrapped with each
internal double quote doubled (the spec example evaluates
accordingly); numbers and booleans are stringified verbatim without
quoting; a data line joins the fields with commas and ends with a
newline. -/
theorem csvField_serialization :
    csvField JSValue.null = ""
    ∧ csvField JSValue.undefined = ""
    ∧ csvField (JSValue.str "He said \"hi\"") = "\"He said \"\"hi\"\"\""
    ∧ csvField (JSValue.num 42) = "42"
    ∧ csvField (JSValue.bool true) = "true"
    ∧ (∀ s : String, csvField (JSValue.str s) = "\"" ++ escapeQuotes s ++ "\"")
    ∧ (∀ n : Int, csvField (JSValue.num n) = toString n)
    ∧ (∀ b : Bool, csvField (JSValue.bool b) = if b then "true" else "false")
    ∧ (∀ (headers : List String) (row : Row), dataLine headers row =
        String.intercalate "," (headers.map (fun h => csvField (rowLookup row h))) ++ "\n") := by
  refine ⟨rfl, rfl, by decide, by decide, rfl,
    fun s => rfl, fun n => rfl, fun b => rfl, fun hs row => rfl⟩

/-- C3: the awaitable of executeStream resolves exactly when the end
event is the first terminal event, after all rows were delivered to
onRow in arrival order; it rejects with the underlying error when the
complete callback reports one (no row delivered) or when the row
stream emits an error event; with no terminal event it stays
pending. -/
theorem executeStream_resolution (rows : List Row) (e : String) (rest : List RowEvent) :
    executeStream none (rows.map RowEvent.rowData ++ RowEvent.streamEnd :: rest) =
      (rows, PromiseOutcome.resolved)
    ∧ executeStream none (rows.map RowEvent.rowData ++ RowEvent.streamErr e :: rest) =
      (rows, PromiseOutcome.rejected e)
    ∧ executeStream (some e) (rows.map RowEvent.rowData ++ RowEvent.streamEnd :: rest) =
      ([], PromiseOutcome.rejected e)
    ∧ executeStream none (rows.map RowEvent.rowData) = (rows, PromiseOutcome.pending) := by
  refine ⟨?_, ?_, rfl, ?_⟩
  · rw [executeStream, runRowEvents_data]
    rfl
  · rw [executeStream, runRowEvents_data]
    rfl
  · rw [executeStream, show rows.map RowEvent.rowData = rows.map RowEvent.rowData ++ [] by simp,
      runRowEvents_data]
    rfl

/-- C4: when the row stream errors after some rows were already
pushed, the error is recorded in streamError (later events cannot
change it), the readable stream is destroyed with that error, the
branch fails with that error instead of producing a success record,
and the chunks pushed so far are exactly those of the rows already
processed. -/
theorem csvBranch_streamError_propagation (rows : List Row) (e : String)
    (rest : List RowEvent) :
    (runCsvBranch none (rows.map RowEvent.rowData ++ RowEvent.streamErr e :: rest)).streamError
      = some e
    ∧ (runCsvBranch none (rows.map RowEvent.rowData ++ RowEvent.streamErr e :: rest)).close
      = CloseMode.destroyed e
    ∧ (runCsvBranch none (rows.map RowEvent.rowData ++ RowEvent.streamErr e :: rest)).outcome
      = BranchOutcome.failure e
    ∧ (runCsvBranch none (rows.map RowEvent.rowData ++ RowEvent.streamErr e :: rest)).chunks
      = (csvRun rows).chunks := by
  have h : runCsvBranch none (rows.map RowEvent.rowData ++ RowEvent.streamErr e :: rest) =
      csvBranchGo (csvRun rows) rows (RowEvent.streamErr e :: rest) := by
    rw [runCsvBranch, csvBranchGo_data]
    rfl
  rw [h]
  exact ⟨rfl, rfl, rfl, rfl⟩

/-- C5 counterexample: with a successful connect and a failing
operation execution, the invocation reaches connect and the operation
only; destroy is never attempted and the invocation fails with the
operation error, refuting that destruction is attempted on the
failure path. -/
theorem destroy_skipped_counterexample :
    (nodeInvocation none (some "SQL compilation error") none).1 =
      [LifecycleAction.connectAction, LifecycleAction.operationAction]
    ∧ LifecycleAction.destroyAction ∉ (nodeInvocation none (some "SQL compilation error") none).1
    ∧ (nodeInvocation none (some "SQL compilation error") none).2 =
        Except.error "SQL compilation error" := by
  refine ⟨rfl, by decide, rfl⟩

/-- C5 amended: the connection is destroyed at the end of the success
path only; when connect succeeds but the operation execution fails,
the error propagates out of the method without attempting destroy
(the handle leaks), and when connect itself fails nothing past
connect runs. -/
theorem destroy_success_path_only (e : String) (de : Option String) :
    LifecycleAction.destroyAction ∈ (nodeInvocation none none de).1
    ∧ LifecycleAction.destroyAction ∉ (nodeInvocation none (some e) de).1
    ∧ (nodeInvocation none (some e) de).2 = Except.error e
    ∧ (nodeInvocation (some e) none de).1 = [LifecycleAction.connectAction] := by
  refine ⟨?_, by simp [nodeInvocation], rfl, rfl⟩
  cases de <;> simp [nodeInvocation]

/-- The values of the projection of a row onto a column list are the
looked-up values of the columns, in order. -/
lemma objectValues_proj (item : Row) (cols : List String) :
    objectValues (cols.map (fun c => (c, rowLookup item c))) =
      cols.map (fun c => rowLookup item c) := by
  simp [objectValues, List.map_map, Function.comp]

/-- C6: the update operation prepends the update key to the parsed
column list when absent, generates the SQL text UPDATE table SET
col = ? comma-joined WHERE key = ? with a trailing semicolon, issues
one execute call per input row, and binds the values of the row for
the columns in order followed by the value of the row at the key; at
the spec example the SQL and binds are exactly as claimed. -/
theorem updateOperation_sql_and_binds (t k cs : String) (items : List Row) :
    updateOperation t k cs items = items.map (fun item =>
      { sqlText := "UPDATE " ++ t ++ " SET "
          ++ String.intercalate ","
            ((if (parseColumns cs).contains k then parseColumns cs
              else k :: parseColumns cs).map (fun c => c ++ " = ?"))
          ++ " WHERE " ++ k ++ " = ?;",
        binds := BindArg.flat
          ((if (parseColumns cs).contains k then parseColumns cs
            else k :: parseColumns cs).map (fun c => rowLookup item c)
            ++ [rowLookup item k]) })
    ∧ (updateOperation t k cs items).length = items.length
    ∧ updateOperation "t" "id" "name" [[("id", JSValue.num 5), ("name", JSValue.str "X")]] =
        [{ sqlText := "UPDATE t SET id = ?,name = ? WHERE id = ?;",
           binds := BindArg.flat [JSValue.num 5, JSValue.str "X", JSValue.num 5] }] := by
  have hk : k ∈ (if (parseColumns cs).contains k then parseColumns cs
      else k :: parseColumns cs) := by
    by_cases h : (parseColumns cs).contains k
    · rw [if_pos h]
      simpa using h
    · rw [if_neg h]
      exact List.mem_cons_self k (parseColumns cs)
  refine ⟨?_, by simp [updateOperation, copyInputItems], by decide⟩
  simp only [updateOperation, copyInputItems, List.map_map]
  refine List.map_congr_left (fun item _ => ?_)
  simp only [Function.comp, ExecCall.mk.injEq, BindArg.flat.injEq]
  exact ⟨trivial, by rw [objectValues_proj, rowLookup_proj item _ k hk]⟩

/-- C7: the insert operation issues exactly one execute call whose
SQL is INSERT INTO table(cols) VALUES with one placeholder per parsed
column, and whose nested bind list carries one entry per input row
holding the values of that row for the parsed columns in order; at
the spec example (two rows, columns a,b) the single call carries both
rows in matching column order. -/
theorem insertOperation_single_execute (t cs : String) (items : List Row) :
    insertOperation t cs items =
      [{ sqlText := "INSERT INTO " ++ t ++ "(" ++ String.intercalate "," (parseColumns cs)
           ++ ") VALUES ("
           ++ String.intercalate "," ((parseColumns cs).map (fun _ => "?")) ++ ")",
         binds := BindArg.nested
           (items.map (fun item => (parseColumns cs).map (fun c => rowLookup item c))) }]
    ∧ (insertOperation t cs items).length = 1
    ∧ ((parseColumns cs).map (fun _ => "?")).length = (parseColumns cs).length
    ∧ insertOperation "tbl" "a,b"
        [[("a", JSValue.num 1), ("b", JSValue.str "x")],
         [("a", JSValue.num 2), ("b", JSValue.str "y")]] =
        [{ sqlText := "INSERT INTO tbl(a,b) VALUES (?,?)",
           binds := BindArg.nested
             [[JSValue.num 1, JSValue.str "x"], [JSValue.num 2, JSValue.str "y"]] }] := by
  refine ⟨?_, rfl, by simp, by decide⟩
  simp only [insertOperation, copyInputItems, List.map_map, ExecCall.mk.injEq,
    BindArg.nested.injEq, List.cons.injEq, and_true]
  refine ⟨trivial, List.map_congr_left (fun item _ => ?_)⟩
  exact objectValues_proj item (parseColumns cs)

/-- C8: the rowCount of the csv branch always equals the number of
onRow invocations (the delivered rows); on a cleanly ending stream
the success record reports exactly that count and echoes it in the
summary message. -/
theorem csvBranch_rowCount_matches (rows : List Row) (rest : List RowEvent) :
    (runCsvBranch none (rows.map RowEvent.rowData ++ RowEvent.streamEnd :: rest)).delivered
      = rows
    ∧ (runCsvBranch none (rows.map RowEvent.rowData ++ RowEvent.streamEnd :: rest)).outcome
      = BranchOutcome.success rows.length
          ("Exported " ++ toString rows.length ++ " rows to CSV")
    ∧ ∀ (ce : Option String) (ev : List RowEvent),
        (runCsvBranch ce ev).rowCount = (runCsvBranch ce ev).delivered.length := by
  have h : runCsvBranch none (rows.map RowEvent.rowData ++ RowEvent.streamEnd :: rest) =
      csvBranchGo (csvRun rows) rows (RowEvent.streamEnd :: rest) := by
    rw [runCsvBranch, csvBranchGo_data]
    rfl
  refine ⟨by rw [h]; rfl, ?_, ?_⟩
  · rw [h]
    simp only [csvBranchGo, csvRun_rowCount]
  · intro ce ev
    cases ce with
    | some e => rfl
    | none => exact csvBranchGo_count_delivered ev csvInit [] rfl

/-- C9 counterexample: for a key-pair credential without passphrase,
the private key placed into the connection options is the formatted
PEM key unchanged, not a PKCS8 export, refuting that both cases are
transcoded to PKCS8. -/
theorem extractPrivateKey_counterexample :
    (getConnectionOptionsKeyPair "user" "PEMKEY" none).privateKey =
      PrivateKeyMaterial.formattedPem "PEMKEY"
    ∧ isPkcs8 (getConnectionOptionsKeyPair "user" "PEMKEY" none).privateKey = false := by
  exact ⟨rfl, rfl⟩

/-- C9 amended: the key-pair branch sets authenticator SNOWFLAKE_JWT
and the username, and passes as private key the PKCS8 PEM export only
when a nonempty passphrase is present; with no passphrase, or an
empty one, the formatted PEM key is passed through unchanged. -/
theorem extractPrivateKey_pkcs8_only_with_passphrase (u pk p : String) :
    (getConnectionOptionsKeyPair u pk none).privateKey =
      PrivateKeyMaterial.formattedPem pk
    ∧ (getConnectionOptionsKeyPair u pk (some "")).privateKey =
      PrivateKeyMaterial.formattedPem pk
    ∧ (p ≠ "" → (getConnectionOptionsKeyPair u pk (some p)).privateKey =
        PrivateKeyMaterial.pkcs8Pem pk p)
    ∧ (getConnectionOptionsKeyPair u pk (some p)).authenticator = "SNOWFLAKE_JWT"
    ∧ (getConnectionOptionsKeyPair u pk (some p)).username = u := by
  refine ⟨rfl, rfl, ?_, rfl, rfl⟩
  intro hp
  simp [getConnectionOptionsKeyPair, extractPrivateKey, hp]

/-- Witness for the amended C9 at a concrete input: a nonempty
passphrase yields the PKCS8 export of the key. -/
theorem extractPrivateKey_pkcs8_witness :
    (getConnectionOptionsKeyPair "user" "PEMKEY" (some "pw")).privateKey =
      PrivateKeyMaterial.pkcs8Pem "PEMKEY" "pw" :=
  (extractPrivateKey_pkcs8_only_with_passphrase "user" "PEMKEY" "pw").2.2.1 (by decide)

/-- C10: a csv export whose stream ends after zero rows pushes no
header line and no data line (the produced CSV text is empty), closes
the stream cleanly, and succeeds with rowCount 0 and the summary
message for zero rows. -/
theorem csvBranch_empty_result :
    runCsvBranch none [RowEvent.streamEnd] =
      { chunks := [], rowCount := 0, delivered := [], streamError := none,
        close := CloseMode.clean,
        outcome := BranchOutcome.success 0 "Exported 0 rows to CSV" }
    ∧ String.join (runCsvBranch none [RowEvent.streamEnd]).chunks = "" := by
  exact ⟨rfl, rfl⟩

end SnowflakeNode
